import Mathlib

/-!
Shallow embedding of the order-matching core of the Trading-Platform-Backend
repository (Go sources: main.go, matching.go, top_orders.go, and the
circuit-breaker handler file), together with theorems settling the frozen
claims about its specification.

Modelling conventions:
* Go `float64` prices always originate from SQL `DECIMAL(10,2)` columns and are
  only compared (`==`, `>`, `<`), never arithmetically combined in the matching
  path, so they are modelled as `ℚ` (exact).  The circuit-breaker averages are
  likewise exact in `ℚ`.
* Go `int` quantities are modelled as `Int`.
* `trade_date` / `trade_time` are ISO-formatted strings in Go compared
  lexicographically (equivalently, SQL DATE/TIME compared chronologically);
  both orders are isomorphic to `Nat`, so they are modelled as `Nat` keys.
* Database tables are modelled as lists of rows; the in-memory breaker cache
  (a Go map with `false` default) is an association list with default `false`.
* Asynchronous post-commit work (`go func` blocks) is applied sequentially
  after the modelled transaction commits.
-/

namespace Trading

/-- Status of a buyer-history row (`buyer_order_history.status`). -/
inductive HistStatus where
  | pending
  | partiallyMatched
  | completed
  | cancelled
  deriving DecidableEq, Repr

/-- Role of an order (Go `Order.Role`, restricted by `getTableName`). -/
inductive Role where
  | buyer
  | seller
  deriving DecidableEq, Repr

/-- An order row as it appears in the `buyer`/`seller` main tables and
`top_buyer`/`top_seller` top tables (Go `Order` struct / `OrderData` in
`matchOrders`).  Field names follow the Go struct. -/
structure BookOrder where
  id : Nat
  userId : Nat
  transactionId : Nat
  price : ℚ
  quantity : Int
  tradeDate : Nat
  tradeTime : Nat
  transactionType : Nat
  matchType : Nat
  marketLeadProgram : Bool
  projectId : Int
  createdAt : Nat
  deriving DecidableEq, Repr

/-- Go `isTransactionTypeCompatible` (matching.go): type 2 is a wildcard,
otherwise the types must be equal. -/
def isTransactionTypeCompatible (buyerType sellerType : Nat) : Bool :=
  if buyerType == 2 || sellerType == 2 then true
  else buyerType == sellerType

/-- The price test of the seller-filter in Go `matchOrders` (matching.go):
`if buyer.MatchType == 0 { buyer.Price == seller.Price } else { buyer.Price > seller.Price }`. -/
def priceCompatible (buyer seller : BookOrder) : Bool :=
  if buyer.matchType == 0 then buyer.price == seller.price
  else decide (buyer.price > seller.price)

/-- The complete per-seller filter of Go `matchOrders`: strict project match,
transaction-type compatibility, then the price test. -/
def sellerCompatible (buyer seller : BookOrder) : Bool :=
  if buyer.projectId != seller.projectId then false
  else if !isTransactionTypeCompatible buyer.transactionType seller.transactionType then false
  else priceCompatible buyer seller

/-- The `compatibleSellers` list built by Go `matchOrders` from the fetched
sellers. -/
def compatibleSellers (buyer : BookOrder) (sellers : List BookOrder) : List BookOrder :=
  sellers.filter (fun s => sellerCompatible buyer s)

/-- C2: for every buyer B and seller S examined in one matching iteration, S is
price-compatible with B exactly when: with `match_type = 0`, `B.price = S.price`;
with `match_type = 1`, `B.price > S.price` strictly; in particular
`match_type = 1` with equal prices does not match.  Membership in the compatible
list additionally requires the project and transaction-type tests. -/
theorem C2_price_compatibility (b s : BookOrder)
    (hmt : b.matchType = 0 ∨ b.matchType = 1) :
    (priceCompatible b s = true ↔
      ((b.matchType = 0 ∧ b.price = s.price) ∨ (b.matchType = 1 ∧ b.price > s.price)))
    ∧ (b.matchType = 1 → b.price = s.price → priceCompatible b s = false)
    ∧ (s ∈ compatibleSellers b [s] ↔
        (b.projectId = s.projectId
          ∧ isTransactionTypeCompatible b.transactionType s.transactionType = true
          ∧ priceCompatible b s = true)) := by
  refine ⟨?_, ?_, ?_⟩
  · unfold priceCompatible
    rcases hmt with h0 | h1
    · simp [h0]
    · rw [h1]
      simp
  · intro h1 hp
    unfold priceCompatible
    rw [h1, hp]
    simp
  · have hmem : s ∈ compatibleSellers b [s] ↔ sellerCompatible b s = true := by
      unfold compatibleSellers
      rw [List.mem_filter]
      simp
    rw [hmem]
    unfold sellerCompatible
    by_cases hproj : b.projectId = s.projectId
    · by_cases htype :
        isTransactionTypeCompatible b.transactionType s.transactionType = true
      · simp [hproj, htype, bne]
      · simp [hproj, htype, bne]
    · simp [hproj, bne]

/-- Witness for C2: a best-price buyer at the same price as the seller is not
matched (strict inequality), checked on concrete orders. -/
theorem C2_price_compatibility_witness :
    priceCompatible
      ⟨1, 1, 10000000, 100, 5, 20250101, 36000, 0, 1, false, 1, 0⟩
      ⟨2, 2, 10000001, 100, 5, 20250101, 36000, 0, 0, false, 1, 0⟩ = false := by
  have h := C2_price_compatibility
    ⟨1, 1, 10000000, 100, 5, 20250101, 36000, 0, 1, false, 1, 0⟩
    ⟨2, 2, 10000001, 100, 5, 20250101, 36000, 0, 0, false, 1, 0⟩ (Or.inr rfl)
  exact h.2.1 rfl rfl

/-- One quantity slice produced by the fill loop of Go `matchOrders`
(the `MatchRecord` data captured for async processing, together with the
per-slice flags computed in the loop). -/
structure Slice where
  sellerId : Nat
  sellerUserId : Nat
  sellerTransactionId : Nat
  sellerPrice : ℚ
  sellerQty : Int
  sellerType : Nat
  matchedQty : Int
  isMulti : Bool
  deleteSeller : Bool
  deriving DecidableEq, Repr

/-- The fill loop of Go `matchOrders`: walk the compatible sellers in order,
stop when the remaining buyer quantity is exhausted; per slice take the whole
remainder if the seller covers it, otherwise the whole seller quantity.
`slicesSoFar` mirrors the Go `matchedSellers` counter (drives `is_multi_match`). -/
def fillSlices (rem : Int) (slicesSoFar : Nat) : List BookOrder → List Slice
  | [] => []
  | s :: rest =>
    if rem ≤ 0 then []
    else
      let matched : Int := if s.quantity ≥ rem then rem else s.quantity
      let delS : Bool := if s.quantity ≥ rem then s.quantity == rem else true
      { sellerId := s.id
        sellerUserId := s.userId
        sellerTransactionId := s.transactionId
        sellerPrice := s.price
        sellerQty := s.quantity
        sellerType := s.transactionType
        matchedQty := matched
        isMulti := decide (0 < slicesSoFar)
        deleteSeller := delS } :: fillSlices (rem - matched) (slicesSoFar + 1) rest

/-- The Go `shouldDeleteBuyer` flag of the fill loop: set exactly when some
slice consumed the whole remaining buyer quantity. -/
def shouldDeleteBuyerCalc (rem : Int) : List BookOrder → Bool
  | [] => false
  | s :: rest =>
    if rem ≤ 0 then false
    else if s.quantity ≥ rem then true
    else shouldDeleteBuyerCalc (rem - s.quantity) rest

/-- Sum of the matched quantities of a list of slices. -/
def sumMatched (l : List Slice) : Int :=
  (l.map Slice.matchedQty).sum

/-- A `buyer_order_history` row (fields relevant to the claims). -/
structure HistRow where
  buyerOrderId : Nat
  originalQty : Int
  totalMatchedQty : Int
  remainingQty : Int
  matchCount : Int
  sellerCount : Int
  status : HistStatus
  deriving DecidableEq, Repr

/-- Go `recordBuyerOrderHistory` (matching.go): the row created on submission,
with `remaining_qty` = the order quantity and status `Pending`. -/
def recordBuyerOrderHistory (o : BookOrder) : HistRow :=
  { buyerOrderId := o.id
    originalQty := o.quantity
    totalMatchedQty := 0
    remainingQty := o.quantity
    matchCount := 0
    sellerCount := 0
    status := HistStatus.pending }

/-- Go `updateBuyerOrderHistory` (matching.go): the SQL UPDATE applied per
slice.  All right-hand sides read the OLD row (SQL semantics), in particular
the status CASE tests `remaining_qty - $1 <= 0` on the old remaining quantity. -/
def updateBuyerOrderHistory (h : HistRow) (matchedQty : Int) : HistRow :=
  { h with
    totalMatchedQty := h.totalMatchedQty + matchedQty
    remainingQty := h.remainingQty - matchedQty
    matchCount := h.matchCount + 1
    sellerCount := h.sellerCount + 1
    status :=
      if h.remainingQty - matchedQty ≤ 0 then HistStatus.completed
      else HistStatus.partiallyMatched }

/-- The async post-commit loop of Go `matchOrders` applying one history update
per match record, in slice order. -/
def applyHistoryUpdates (h : HistRow) (slices : List Slice) : HistRow :=
  slices.foldl (fun acc sl => updateBuyerOrderHistory acc sl.matchedQty) h

/-- A `match_assignments` row (Go `MatchAssignment`). -/
structure MatchAssignmentRow where
  buyerOrderId : Nat
  sellerOrderId : Nat
  sellerUserId : Nat
  sellerTransactionId : Nat
  sellerTotalQty : Int
  assignedQty : Int
  sellerPrice : ℚ
  matchedOrderId : Nat
  deriving DecidableEq, Repr

/-- Go `recordMatchAssignment` (matching.go): inserts one assignment row with
exactly the arguments it is given. -/
def recordMatchAssignment (buyerOrderId sellerOrderId sellerUserId : Nat)
    (sellerTransactionId : Nat) (sellerTotalQty assignedQty : Int)
    (sellerPrice : ℚ) (matchedOrderId : Nat) : MatchAssignmentRow :=
  { buyerOrderId := buyerOrderId
    sellerOrderId := sellerOrderId
    sellerUserId := sellerUserId
    sellerTransactionId := sellerTransactionId
    sellerTotalQty := sellerTotalQty
    assignedQty := assignedQty
    sellerPrice := sellerPrice
    matchedOrderId := matchedOrderId }

/-- The async assignment-recording loop of Go `matchOrders`: for each match
record it calls `recordMatchAssignment(..., rec.MatchedQty+0, rec.MatchedQty,
rec.SellerPrice, rec.MatchedID)`; `matchedId` ids are the serial ids returned
by the matched-order inserts. -/
def mkAssignments (buyerId : Nat) (matchedId : Nat) : List Slice → List MatchAssignmentRow
  | [] => []
  | sl :: rest =>
    recordMatchAssignment buyerId sl.sellerId sl.sellerUserId sl.sellerTransactionId
      (sl.matchedQty + 0) sl.matchedQty sl.sellerPrice matchedId
      :: mkAssignments buyerId (matchedId + 1) rest

/-- A `matched_orders` row (Go `MatchedOrder`), restricted to the fields the
claims are about; `createdDay` stands for the DATE part of `created_at`. -/
structure TradeRec where
  id : Nat
  sellerPrice : ℚ
  buyerPrice : ℚ
  sellerQty : Int
  buyerQty : Int
  matchedQty : Int
  transactionType : Nat
  buyerOrderId : Nat
  sellerOrderId : Nat
  buyerUserId : Nat
  sellerUserId : Nat
  projectId : Int
  isMultiMatch : Bool
  createdDay : Nat
  deriving DecidableEq, Repr

/-- The effective transaction type recorded on a trade (Go `matchOrders`):
a wildcard side (type 2) defers to the non-wildcard side, otherwise the
buyer's type is recorded. -/
def matchedTransactionType (bt st : Nat) : Nat :=
  if bt == 2 && st != 2 then st
  else if st == 2 && bt != 2 then bt
  else bt

/-- The trade-record inserts performed by the fill loop of Go `matchOrders`,
one per slice, with serial ids from `baseId`. -/
def mkTradeRecs (b : BookOrder) (baseId day : Nat) : List Slice → List TradeRec
  | [] => []
  | sl :: rest =>
    { id := baseId
      sellerPrice := sl.sellerPrice
      buyerPrice := b.price
      sellerQty := sl.sellerQty
      buyerQty := b.quantity
      matchedQty := sl.matchedQty
      transactionType := matchedTransactionType b.transactionType sl.sellerType
      buyerOrderId := b.id
      sellerOrderId := sl.sellerId
      buyerUserId := b.userId
      sellerUserId := sl.sellerUserId
      projectId := b.projectId
      isMultiMatch := sl.isMulti
      createdDay := day } :: mkTradeRecs b (baseId + 1) day rest

theorem sumMatched_nil : sumMatched [] = 0 := rfl

theorem sumMatched_cons (x : Slice) (xs : List Slice) :
    sumMatched (x :: xs) = x.matchedQty + sumMatched xs := by
  simp [sumMatched]

theorem mkTradeRecs_map_matchedQty (b : BookOrder) (baseId day : Nat)
    (slices : List Slice) :
    (mkTradeRecs b baseId day slices).map TradeRec.matchedQty
      = slices.map Slice.matchedQty := by
  induction slices generalizing baseId with
  | nil => rfl
  | cons x xs ih => simp [mkTradeRecs, ih]

theorem fillSlices_get_min (sellers : List BookOrder) :
    ∀ (rem : Int) (k i : Nat) (sl : Slice),
      (fillSlices rem k sellers).get? i = some sl →
      sl.matchedQty
        = min (rem - sumMatched ((fillSlices rem k sellers).take i))
            sl.sellerQty := by
  induction sellers with
  | nil => intro rem k i sl h; simp [fillSlices] at h
  | cons s rest ih =>
    intro rem k i sl h
    by_cases hrem : rem ≤ 0
    · rw [fillSlices, if_pos hrem] at h
      simp at h
    · rw [fillSlices, if_neg hrem] at h ⊢
      match i with
      | 0 =>
        simp only [List.get?_cons_zero, Option.some.injEq] at h
        subst h
        simp only [List.take_zero, sumMatched_nil, min_def]
        split_ifs <;> omega
      | i + 1 =>
        rw [List.get?_cons_succ] at h
        have hmain := ih (rem - if s.quantity ≥ rem then rem else s.quantity)
          (k + 1) i sl h
        have hm : sumMatched (List.take (i + 1)
            ({ sellerId := s.id, sellerUserId := s.userId,
               sellerTransactionId := s.transactionId, sellerPrice := s.price,
               sellerQty := s.quantity, sellerType := s.transactionType,
               matchedQty := if s.quantity ≥ rem then rem else s.quantity,
               isMulti := decide (0 < k),
               deleteSeller := if s.quantity ≥ rem then s.quantity == rem else true } ::
              fillSlices (rem - if s.quantity ≥ rem then rem else s.quantity)
                (k + 1) rest))
            = (if s.quantity ≥ rem then rem else s.quantity)
              + sumMatched (List.take i
                  (fillSlices (rem - if s.quantity ≥ rem then rem else s.quantity)
                    (k + 1) rest)) := by
          rw [List.take_succ_cons, sumMatched_cons]
        rw [hm, hmain]
        congr 1
        omega

theorem sumMatched_fillSlices_le (sellers : List BookOrder) :
    ∀ (rem : Int) (k : Nat), 0 ≤ rem →
      sumMatched (fillSlices rem k sellers) ≤ rem := by
  induction sellers with
  | nil => intro rem k h; simp [fillSlices, sumMatched]; exact h
  | cons s rest ih =>
    intro rem k h
    by_cases hrem : rem ≤ 0
    · simp [fillSlices, hrem, sumMatched]
      exact h
    · by_cases hcov : s.quantity ≥ rem
      · have hrec := ih (rem - rem) (k + 1) (by omega)
        simp only [fillSlices, hrem, if_false, hcov, if_true, sumMatched_cons]
        omega
      · have hrec := ih (rem - s.quantity) (k + 1) (by omega)
        simp only [fillSlices, hrem, if_false, hcov, sumMatched_cons]
        omega

theorem applyHistoryUpdates_status (slices : List Slice) :
    ∀ h : HistRow, slices ≠ [] →
      (applyHistoryUpdates h slices).status
        = (if h.remainingQty - sumMatched slices ≤ 0 then HistStatus.completed
           else HistStatus.partiallyMatched) := by
  induction slices with
  | nil => intro h hne; exact absurd rfl hne
  | cons x xs ih =>
    intro h hne
    match xs, ih with
    | [], _ =>
      simp [applyHistoryUpdates, updateBuyerOrderHistory, sumMatched]
    | y :: ys, ih =>
      have step : applyHistoryUpdates h (x :: y :: ys)
          = applyHistoryUpdates (updateBuyerOrderHistory h x.matchedQty) (y :: ys) := rfl
      rw [step, ih (updateBuyerOrderHistory h x.matchedQty) (by simp)]
      have hrem : (updateBuyerOrderHistory h x.matchedQty).remainingQty
          = h.remainingQty - x.matchedQty := rfl
      rw [hrem]
      have hsum : sumMatched (x :: y :: ys) = x.matchedQty + sumMatched (y :: ys) :=
        sumMatched_cons x (y :: ys)
      rw [hsum]
      have hiff : h.remainingQty - x.matchedQty - sumMatched (y :: ys) ≤ 0
          ↔ h.remainingQty - (x.matchedQty + sumMatched (y :: ys)) ≤ 0 := by
        omega
      exact if_congr hiff rfl rfl

/-- C7: in every fill loop over a buyer B, the trade records' matched
quantities are exactly the slice quantities, each slice matches
`min(remaining buyer quantity, seller quantity)`, the total never exceeds B's
original quantity, and it equals it exactly when the buyer-history status
(after the per-slice updates) becomes Completed. -/
theorem C7_fill_loop_conservation (b : BookOrder) (sellers : List BookOrder)
    (baseId day : Nat) (hq : 0 < b.quantity) :
    ((mkTradeRecs b baseId day (fillSlices b.quantity 0 sellers)).map TradeRec.matchedQty
        = (fillSlices b.quantity 0 sellers).map Slice.matchedQty)
    ∧ (∀ (i : Nat) (sl : Slice), (fillSlices b.quantity 0 sellers).get? i = some sl →
        sl.matchedQty
          = min (b.quantity - sumMatched ((fillSlices b.quantity 0 sellers).take i))
              sl.sellerQty)
    ∧ sumMatched (fillSlices b.quantity 0 sellers) ≤ b.quantity
    ∧ ((applyHistoryUpdates (recordBuyerOrderHistory b)
          (fillSlices b.quantity 0 sellers)).status = HistStatus.completed
        ↔ sumMatched (fillSlices b.quantity 0 sellers) = b.quantity) := by
  have hle := sumMatched_fillSlices_le sellers b.quantity 0 (by omega)
  refine ⟨mkTradeRecs_map_matchedQty b baseId day _,
    fun i sl hsl => fillSlices_get_min sellers b.quantity 0 i sl hsl, hle, ?_⟩
  by_cases hnil : fillSlices b.quantity 0 sellers = []
  · rw [hnil]
    simp only [applyHistoryUpdates, List.foldl_nil, recordBuyerOrderHistory,
      sumMatched_nil]
    constructor
    · intro hcon; exact absurd hcon (by simp)
    · intro h0; omega
  · rw [applyHistoryUpdates_status _ _ hnil]
    have hrem0 : (recordBuyerOrderHistory b).remainingQty = b.quantity := rfl
    rw [hrem0]
    by_cases hc : b.quantity - sumMatched (fillSlices b.quantity 0 sellers) ≤ 0
    · simp only [hc, if_true, true_iff]
      omega
    · simp only [hc, if_false]
      constructor
      · intro habs; exact absurd habs (by simp)
      · intro heq; omega

/-- Witness for C7 at a concrete buyer (quantity 10) against two sellers of
quantities 4 and 7: the total matched is bounded by 10 and the history status
becomes Completed exactly because the total is 10. -/
theorem C7_fill_loop_conservation_witness :
    sumMatched (fillSlices (10 : Int) 0
        [⟨21, 3, 10000002, 100, 4, 20250101, 100, 0, 0, false, 1, 0⟩,
         ⟨22, 4, 10000003, 105, 7, 20250101, 200, 0, 0, false, 1, 0⟩]) ≤ 10
    ∧ ((applyHistoryUpdates
          (recordBuyerOrderHistory ⟨11, 5, 10000004, 110, 10, 20250101, 50, 0, 1, false, 1, 0⟩)
          (fillSlices (10 : Int) 0
            [⟨21, 3, 10000002, 100, 4, 20250101, 100, 0, 0, false, 1, 0⟩,
             ⟨22, 4, 10000003, 105, 7, 20250101, 200, 0, 0, false, 1, 0⟩])).status
        = HistStatus.completed
      ↔ sumMatched (fillSlices (10 : Int) 0
          [⟨21, 3, 10000002, 100, 4, 20250101, 100, 0, 0, false, 1, 0⟩,
           ⟨22, 4, 10000003, 105, 7, 20250101, 200, 0, 0, false, 1, 0⟩]) = 10) := by
  have h := C7_fill_loop_conservation
    ⟨11, 5, 10000004, 110, 10, 20250101, 50, 0, 1, false, 1, 0⟩
    [⟨21, 3, 10000002, 100, 4, 20250101, 100, 0, 0, false, 1, 0⟩,
     ⟨22, 4, 10000003, 105, 7, 20250101, 200, 0, 0, false, 1, 0⟩]
    1 20250101 (by decide)
  exact ⟨h.2.2.1, h.2.2.2⟩

/-- C9: every Match Assignment row created by the async recording loop carries
`seller_total_qty` equal to the assigned (matched) quantity of its slice — the
call site passes `rec.MatchedQty+0` as the seller-total argument. -/
theorem C9_assignment_seller_total_qty (buyerId matchedId : Nat)
    (slices : List Slice) :
    ∀ a ∈ mkAssignments buyerId matchedId slices,
      a.sellerTotalQty = a.assignedQty := by
  induction slices generalizing matchedId with
  | nil => intro a ha; simp [mkAssignments] at ha
  | cons x xs ih =>
    intro a ha
    simp only [mkAssignments, List.mem_cons] at ha
    rcases ha with h | h
    · subst h
      simp [recordMatchAssignment]
    · exact ih (matchedId + 1) a h

/-- Witness for C9 on the concrete assignment row of a single 4-unit slice. -/
theorem C9_assignment_seller_total_qty_witness :
    (recordMatchAssignment 11 21 3 10000002 (4 + 0) 4 100 1).sellerTotalQty
      = (recordMatchAssignment 11 21 3 10000002 (4 + 0) 4 100 1).assignedQty :=
  C9_assignment_seller_total_qty 11 1 [⟨21, 3, 10000002, 100, 4, 0, 4, false, true⟩]
    (recordMatchAssignment 11 21 3 10000002 (4 + 0) 4 100 1)
    (by simp [mkAssignments])

/-- A `project_circuit_breakers` row. -/
structure BreakerRow where
  projectId : Int
  thresholdPercentage : ℚ
  isHalted : Bool
  dayOpenPrice : ℚ
  currentPrice : ℚ
  priceDropPercentage : ℚ
  deriving DecidableEq, Repr

/-- The in-memory `breakerCache` Go map (`map[int]bool`): an association list
whose lookup defaults to `false`, exactly like a Go map read of a missing key. -/
abbrev BreakerCache := List (Int × Bool)

/-- Go `updateBreakerCache` (matching.go).  NOTE: this function has no caller
anywhere in the repository. -/
def updateBreakerCache (c : BreakerCache) (projectId : Int) (isHalted : Bool) :
    BreakerCache :=
  (projectId, isHalted) :: c.filter (fun p => p.1 != projectId)

/-- Go `isProjectHaltedCached` (matching.go): `return breakerCache[projectID]`,
whose value for an absent key is the zero value `false`. -/
def isProjectHaltedCached (c : BreakerCache) (projectId : Int) : Bool :=
  match c.find? (fun p => p.1 == projectId) with
  | some p => p.2
  | none => false

/-- Go `isProjectHalted` (circuit-breaker file): reads
`COALESCE(is_halted,false)` for the project row; `sql.ErrNoRows` is translated
to `(false, nil)`. -/
def isProjectHalted (rows : List BreakerRow) (projectId : Int) :
    Except Unit Bool :=
  match rows.find? (fun r => r.projectId == projectId) with
  | some r => Except.ok r.isHalted
  | none => Except.ok false

/-- The SQL aggregate `COALESCE(AVG((buyer_price + seller_price) / 2), 0)` over
today's `matched_orders` of one project (both breaker queries compute this same
aggregate; their `ORDER BY ... LIMIT 1` clauses act on a single aggregated
row). -/
def avgTradePrice (ms : List TradeRec) (projectId : Int) (day : Nat) : ℚ :=
  let ts := ms.filter (fun m => m.projectId == projectId && m.createdDay == day)
  if ts.length == 0 then 0
  else (ts.map (fun m => (m.buyerPrice + m.sellerPrice) / 2)).sum / (ts.length : ℚ)

/-- The per-row body of Go `checkAndUpdateCircuitBreakers`: skip halted rows,
skip rows with no trades today, initialize the day-open price, store the drop
percentage, and halt when the threshold is met. -/
def stepBreakerRow (ms : List TradeRec) (day : Nat) (r : BreakerRow) : BreakerRow :=
  if r.isHalted then r
  else
    let currentPrice := avgTradePrice ms r.projectId day
    if currentPrice == 0 then r
    else
      let dayOpen := if r.dayOpenPrice == 0 then avgTradePrice ms r.projectId day
                     else r.dayOpenPrice
      if dayOpen == 0 then r
      else
        let drop := ((dayOpen - currentPrice) / dayOpen) * 100
        let r1 := { r with dayOpenPrice := dayOpen, currentPrice := currentPrice,
                           priceDropPercentage := drop }
        if drop ≥ r.thresholdPercentage then { r1 with isHalted := true } else r1

/-- The full in-memory program state touched by the matching subsystem:
the four order tables, the ledgers, the breaker store, the breaker cache and
the serial id counter for `matched_orders`. -/
structure World where
  topBuyer : List BookOrder
  topSeller : List BookOrder
  mainBuyer : List BookOrder
  mainSeller : List BookOrder
  matchedOrders : List TradeRec
  breakers : List BreakerRow
  cache : BreakerCache
  history : List HistRow
  assignments : List MatchAssignmentRow
  today : Nat
  nextMatchedId : Nat
  deriving DecidableEq, Repr

/-- Go `checkAndUpdateCircuitBreakers`: scans rows with positive threshold and
updates them in the store.  It never calls `updateBreakerCache`, so the cache
component is returned unchanged — exactly as in the source. -/
def checkAndUpdateCircuitBreakers (w : World) : World :=
  { w with breakers := w.breakers.map (fun r =>
      if r.thresholdPercentage > 0 then stepBreakerRow w.matchedOrders w.today r
      else r) }

/-- Stable insertion of an element into a list ordered by a Boolean
comparator (used to model SQL ORDER BY). -/
def insertLe {α : Type} (le : α → α → Bool) (a : α) : List α → List α
  | [] => [a]
  | b :: l => if le a b then a :: b :: l else b :: insertLe le a l

/-- Stable insertion sort by a Boolean comparator: the model of SQL ORDER BY
(any comparator-consistent permutation is a faithful model; a stable sort is
chosen to make the embedding deterministic). -/
def sortByLe {α : Type} (le : α → α → Bool) : List α → List α
  | [] => []
  | a :: l => insertLe le a (sortByLe le l)

/-- The ORDER BY of the top-buyer fetch (`getBuyerQuery` and the sync queries):
`market_lead_program DESC, price DESC, quantity DESC, trade_date ASC,
trade_time ASC`. -/
def buyerFetchLe (a b : BookOrder) : Bool :=
  if a.marketLeadProgram != b.marketLeadProgram then a.marketLeadProgram
  else if a.price != b.price then decide (a.price > b.price)
  else if a.quantity != b.quantity then decide (a.quantity > b.quantity)
  else if a.tradeDate != b.tradeDate then decide (a.tradeDate < b.tradeDate)
  else decide (a.tradeTime ≤ b.tradeTime)

/-- The ORDER BY of the top-seller fetch (`getAllSellersQuery` and the sync
queries): `market_lead_program DESC, price ASC, quantity DESC, trade_date ASC,
trade_time ASC`. -/
def sellerFetchLe (a b : BookOrder) : Bool :=
  if a.marketLeadProgram != b.marketLeadProgram then a.marketLeadProgram
  else if a.price != b.price then decide (a.price < b.price)
  else if a.quantity != b.quantity then decide (a.quantity > b.quantity)
  else if a.tradeDate != b.tradeDate then decide (a.tradeDate < b.tradeDate)
  else decide (a.tradeTime ≤ b.tradeTime)

/-- The top-20 buyer pull of `matchOrders` (`getBuyerQuery`, LIMIT 20). -/
def getBuyers (w : World) : List BookOrder :=
  (sortByLe buyerFetchLe w.topBuyer).take 20

/-- The top-50 seller pull of `matchOrders` (`getAllSellersQuery`, LIMIT 50). -/
def getSellers (w : World) : List BookOrder :=
  (sortByLe sellerFetchLe w.topSeller).take 50

/-- The `UPDATE <main> SET quantity = $1 WHERE id = $2` mirror statement fired
asynchronously after a partial fill. -/
def mirrorQty (main : List BookOrder) (oid : Nat) (q : Int) : List BookOrder :=
  main.map (fun o => if o.id == oid then { o with quantity := q } else o)

/-- The per-slice seller mutations of the fill loop: DELETE fully-filled
sellers from `top_seller`, otherwise decrement the quantity there and mirror it
into the main table. -/
def applySellerFills (top main : List BookOrder) (slices : List Slice) :
    List BookOrder × List BookOrder :=
  slices.foldl (fun tm sl =>
    if sl.deleteSeller then (tm.1.filter (fun o => o.id != sl.sellerId), tm.2)
    else (tm.1.map (fun o =>
            if o.id == sl.sellerId then { o with quantity := sl.sellerQty - sl.matchedQty }
            else o),
          mirrorQty tm.2 sl.sellerId (sl.sellerQty - sl.matchedQty))) (top, main)

/-- The per-slice history UPDATE applied to the `buyer_order_history` table
(`WHERE buyer_order_id = $2`). -/
def updateHistTable (t : List HistRow) (buyerId : Nat) (mq : Int) : List HistRow :=
  t.map (fun h => if h.buyerOrderId == buyerId then updateBuyerOrderHistory h mq else h)

/-- Go `smartSyncTopOrders` for one side: if the top table is below K = 10,
top it up with the best absent main-table orders and delete the moved rows from
the main table. -/
def smartSyncSide (le : BookOrder → BookOrder → Bool) (top main : List BookOrder) :
    List BookOrder × List BookOrder :=
  if top.length ≥ 10 then (top, main)
  else
    let needed := 10 - top.length
    let candidates := (sortByLe le (main.filter (fun o =>
        !(top.any (fun t => t.id == o.id))))).take needed
    let top1 := top ++ candidates
    if candidates.length > 0 then
      (top1, main.filter (fun o => !(top1.any (fun t => t.id == o.id))))
    else (top1, main)

/-- Go `syncTopOrders` for one side ("full sync"): DELETE the whole top table,
INSERT the 10 best rows of the main table, and if anything was inserted, DELETE
from the main table every row whose id is now in the top table. -/
def syncSide (le : BookOrder → BookOrder → Bool) (top main : List BookOrder) :
    List BookOrder × List BookOrder :=
  let top1 := (sortByLe le main).take 10
  if top1.length > 0 then
    (top1, main.filter (fun o => !(top1.any (fun t => t.id == o.id))))
  else (top1, main)

/-- Go `syncAllTopOrders`: full sync of the buyer side then the seller side. -/
def syncAllTopOrders (w : World) : World :=
  let pb := syncSide buyerFetchLe w.topBuyer w.mainBuyer
  let ps := syncSide sellerFetchLe w.topSeller w.mainSeller
  { w with topBuyer := pb.1, mainBuyer := pb.2, topSeller := ps.1, mainSeller := ps.2 }

/-- The committed transaction plus the post-commit async work of one successful
`matchOrders` fill for buyer `b` against its compatible sellers. -/
def applyFillToWorld (w : World) (b : BookOrder) (compat : List BookOrder) : World :=
  let slices := fillSlices b.quantity 0 compat
  let recs := mkTradeRecs b w.nextMatchedId w.today slices
  let sm := applySellerFills w.topSeller w.mainSeller slices
  let delBuyer := shouldDeleteBuyerCalc b.quantity compat
  let finalRem := b.quantity - sumMatched slices
  let topBuyer1 := if delBuyer then w.topBuyer.filter (fun o => o.id != b.id)
    else w.topBuyer.map (fun o =>
      if o.id == b.id then { o with quantity := finalRem } else o)
  let mainBuyer1 := if delBuyer then w.mainBuyer else mirrorQty w.mainBuyer b.id finalRem
  let history1 := slices.foldl (fun t sl => updateHistTable t b.id sl.matchedQty) w.history
  let assignments1 := w.assignments ++ mkAssignments b.id w.nextMatchedId slices
  let pb := if delBuyer then smartSyncSide buyerFetchLe topBuyer1 mainBuyer1
            else (topBuyer1, mainBuyer1)
  let ps := smartSyncSide sellerFetchLe sm.1 sm.2
  { w with
    topBuyer := pb.1
    mainBuyer := pb.2
    topSeller := ps.1
    mainSeller := ps.2
    matchedOrders := w.matchedOrders ++ recs
    history := history1
    assignments := assignments1
    nextMatchedId := w.nextMatchedId + slices.length }

/-- The buyer scan of Go `matchOrders`: walk the fetched buyers in priority
order, skip halted projects, skip buyers with no compatible sellers, and
execute the fill for the first matchable buyer. -/
def tryBuyers (w : World) : List BookOrder → Option World
  | [] => none
  | b :: rest =>
    if isProjectHaltedCached w.cache b.projectId then tryBuyers w rest
    else
      let compat := compatibleSellers b (getSellers w)
      if compat.isEmpty then tryBuyers w rest
      else some (applyFillToWorld w b compat)

/-- Go `matchOrders`: one matching iteration; returns whether a match was made
together with the updated state. -/
def matchOrders (w : World) : Bool × World :=
  match tryBuyers w (getBuyers w) with
  | none => (false, w)
  | some w' => (true, w')

/-- Result of one matching batch: final state, number of matches, and whether
the idle full sync (`syncAllTopOrders`) was scheduled. -/
structure BatchResult where
  world : World
  matchCnt : Nat
  syncScheduled : Bool
  deriving DecidableEq, Repr

/-- The `for` loop of Go `matchAllOrdersContinuous`: count both top tables;
when either is empty schedule the full sync and stop; otherwise run one
`matchOrders` iteration and either continue (match made) or stop with no sync
(zero progress).  `fuel` bounds the iterations of the shallow embedding. -/
def matchLoop : Nat → World → Nat → BatchResult
  | 0, w, n => ⟨w, n, false⟩
  | Nat.succ fuel, w, n =>
    if w.topBuyer.length < 1 || w.topSeller.length < 1 then
      ⟨syncAllTopOrders w, n, true⟩
    else
      let r := matchOrders w
      if r.1 then matchLoop fuel r.2 (n + 1)
      else ⟨r.2, n, false⟩

/-- Go `matchAllOrdersContinuous`: refresh the breaker store once, then loop. -/
def matchAllOrdersContinuous (fuel : Nat) (w : World) : BatchResult :=
  matchLoop fuel (checkAndUpdateCircuitBreakers w) 0

/-- Go `checkAndTriggerMatching` (top_orders.go): the only matching entry point
that consults `matchingEnabled`; with the flag off it returns immediately,
otherwise it refreshes the breakers and runs the batch when both top tables are
non-empty. -/
def checkAndTriggerMatching (enabled : Bool) (fuel : Nat) (w : World) : BatchResult :=
  if !enabled then ⟨w, 0, false⟩
  else if w.topBuyer.length ≥ 1 && w.topSeller.length ≥ 1 then
    matchAllOrdersContinuous fuel (checkAndUpdateCircuitBreakers w)
  else ⟨w, 0, false⟩

/-- Go `triggerMatching` (main.go, handler of POST /api/match): calls
`matchAllOrders` directly; it never reads the `matchingEnabled` flag. -/
def triggerMatching (enabled : Bool) (fuel : Nat) (w : World) : BatchResult :=
  matchAllOrdersContinuous fuel w

/-- Go `toggleMatchingEngine` (main.go): sets the flag, and when enabling with
both top tables non-empty refreshes the breakers and runs a batch. -/
def toggleMatchingEngine (newEnabled : Bool) (fuel : Nat) (w : World) :
    Bool × BatchResult :=
  if newEnabled then
    if w.topBuyer.length ≥ 1 && w.topSeller.length ≥ 1 then
      (newEnabled, matchAllOrdersContinuous fuel (checkAndUpdateCircuitBreakers w))
    else (newEnabled, ⟨w, 0, false⟩)
  else (newEnabled, ⟨w, 0, false⟩)

/-- An exact-match buyer on project 1 used in the concrete states below. -/
def bEx1 : BookOrder := ⟨1, 1, 10000000, 100, 5, 20250101, 100, 0, 0, false, 1, 0⟩

/-- A seller on project 1 at the buyer's price. -/
def sEx1 : BookOrder := ⟨2, 2, 10000001, 100, 5, 20250101, 200, 0, 0, false, 1, 0⟩

/-- A seller on project 2 (incompatible with `bEx1` by project isolation). -/
def sEx2 : BookOrder := ⟨3, 3, 10000002, 100, 5, 20250101, 200, 0, 0, false, 2, 0⟩

/-- State with one compatible buyer/seller pair and matching disabled
contextually (C5). -/
def wC5ex : World := ⟨[bEx1], [sEx1], [], [], [], [], [], [], [], 20250101, 1⟩

/-- State with one buyer and one seller on different projects: both top sides
non-empty but no match possible (C6). -/
def wC6ex : World := ⟨[bEx1], [sEx2], [], [], [], [], [], [], [], 20250101, 1⟩

/-- State whose breaker store says project 1 is halted, with the breaker cache
in its actual program state (never written, hence empty), and a compatible
buyer/seller pair on project 1 (C1). -/
def wC1ex : World :=
  ⟨[bEx1], [sEx1], [], [], [], [⟨1, 10, true, 100, 89, 11⟩], [], [], [], 20250101, 1⟩

/-- C10: a project with no entry in the breaker cache and no row in the
circuit-breaker store is reported not halted by both lookups, never an error,
so it stays eligible for matching. -/
theorem C10_missing_breaker_defaults_to_not_halted
    (c : BreakerCache) (rows : List BreakerRow) (pid : Int)
    (hc : ∀ p ∈ c, p.1 ≠ pid) (hr : ∀ r ∈ rows, r.projectId ≠ pid) :
    isProjectHaltedCached c pid = false
    ∧ isProjectHalted rows pid = Except.ok false := by
  constructor
  · unfold isProjectHaltedCached
    have hnone : c.find? (fun p => p.1 == pid) = none := by
      rw [List.find?_eq_none]
      intro p hp
      simp [hc p hp]
    rw [hnone]
  · unfold isProjectHalted
    have hnone : rows.find? (fun r => r.projectId == pid) = none := by
      rw [List.find?_eq_none]
      intro r hrm
      simp [hr r hrm]
    rw [hnone]

/-- Witness for C10: project 7 with an empty cache and empty breaker store. -/
theorem C10_missing_breaker_defaults_to_not_halted_witness :
    isProjectHaltedCached [] 7 = false
    ∧ isProjectHalted [] 7 = Except.ok false :=
  C10_missing_breaker_defaults_to_not_halted [] [] 7
    (by intro p hp; simp at hp) (by intro r hr; simp at hr)

/-- C5 counterexample: with `matching_enabled = false` and a compatible pair in
the book, the manual trigger (`triggerMatching`, POST /api/match) still runs a
full batch and produces a match — it never consults the flag. -/
theorem C5_manual_trigger_ignores_flag_counterexample :
    (triggerMatching false 4 wC5ex).matchCnt = 1
    ∧ (triggerMatching false 4 wC5ex).world.matchedOrders.length = 1 := by
  decide

/-- C5 amended: only `checkAndTriggerMatching` (the order-admission path)
checks `matching_enabled` first and returns immediately with no match when it
is false; the disable-toggle path does not match either; the manual trigger
behaves identically whether the flag is true or false. -/
theorem C5_enabled_flag_gate (fuel : Nat) (w : World) :
    checkAndTriggerMatching false fuel w = ⟨w, 0, false⟩
    ∧ toggleMatchingEngine false fuel w = (false, ⟨w, 0, false⟩)
    ∧ triggerMatching false fuel w = triggerMatching true fuel w :=
  ⟨rfl, rfl, rfl⟩

/-- C6 counterexample: a batch over one buyer (project 1) and one seller
(project 2) ends with zero matches while both top sides are non-empty, and no
full sync is scheduled. -/
theorem C6_zero_match_no_sync_counterexample :
    (matchAllOrdersContinuous 4 wC6ex).matchCnt = 0
    ∧ (matchAllOrdersContinuous 4 wC6ex).syncScheduled = false
    ∧ (matchAllOrdersContinuous 4 wC6ex).world.topBuyer.length = 1
    ∧ (matchAllOrdersContinuous 4 wC6ex).world.topSeller.length = 1 := by
  decide

/-- C6 amended: the batch schedules the full sync of both sides exactly when it
observes an empty top side; a batch iteration that makes no match while both
sides are non-empty stops immediately with no sync and no state change. -/
theorem C6_sync_only_on_empty_side :
    (∀ (fuel n : Nat) (w : World), w.topBuyer = [] ∨ w.topSeller = [] →
      matchLoop (fuel + 1) w n = ⟨syncAllTopOrders w, n, true⟩)
    ∧ (∀ (fuel n : Nat) (w : World), w.topBuyer ≠ [] → w.topSeller ≠ [] →
      (matchOrders w).1 = false →
      matchLoop (fuel + 1) w n = ⟨w, n, false⟩) := by
  constructor
  · intro fuel n w hemp
    have hcond : (w.topBuyer.length < 1 || w.topSeller.length < 1) = true := by
      rcases hemp with h | h <;> simp [h]
    simp only [matchLoop]
    rw [hcond]
    simp
  · intro fuel n w hb hs hnm
    have hmo : matchOrders w = (false, w) := by
      unfold matchOrders at hnm ⊢
      cases htb : tryBuyers w (getBuyers w) with
      | none => rfl
      | some w' => rw [htb] at hnm; simp at hnm
    have hcond : (w.topBuyer.length < 1 || w.topSeller.length < 1) = false := by
      have hb' : w.topBuyer.length ≠ 0 := fun h0 => hb (List.length_eq_zero.mp h0)
      have hs' : w.topSeller.length ≠ 0 := fun h0 => hs (List.length_eq_zero.mp h0)
      simp only [Bool.or_eq_false_iff, decide_eq_false_iff_not, Nat.not_lt]
      omega
    simp only [matchLoop]
    rw [hcond, hmo]
    simp

/-- Witness for C6 at the concrete no-match state: the loop stops at once,
without syncing, leaving the state unchanged. -/
theorem C6_sync_only_on_empty_side_witness :
    matchLoop 1 wC6ex 0 = ⟨wC6ex, 0, false⟩ :=
  C6_sync_only_on_empty_side.2 0 0 wC6ex (by decide) (by decide) (by decide)

/-- C1 at its failing input: project 1 is halted in the circuit-breaker store,
yet a full matching run (which refreshes the breakers first) still produces a
trade record for project 1, because the breaker cache consulted by the loop is
never populated (`updateBreakerCache` has no caller). -/
theorem C1_halted_project_still_matched :
    isProjectHalted wC1ex.breakers 1 = Except.ok true
    ∧ (checkAndTriggerMatching true 4 wC1ex).matchCnt = 1
    ∧ ((checkAndTriggerMatching true 4 wC1ex).world.matchedOrders.filter
        (fun m => m.projectId == 1)).length = 1 := by
  refine ⟨rfl, by decide, by decide⟩

/-- One side of the two-tier book (`top_buyer`+`buyer` or `top_seller`+`seller`). -/
structure Side where
  top : List BookOrder
  main : List BookOrder
  deriving DecidableEq, Repr

/-- The row returned by an `ORDER BY ... LIMIT 1` worst-order query: a minimal
element under the strict comparator `lt`, scanning the rows and keeping the
first minimum. -/
def worstBy (lt : BookOrder → BookOrder → Bool) : List BookOrder → Option BookOrder
  | [] => none
  | x :: xs => some (xs.foldl (fun w e => if lt e w then e else w) x)

/-- Sort key of the worst-buyer query
`ORDER BY price ASC, quantity ASC, trade_date DESC, trade_time DESC`
(top_orders.go): lexicographic on (price, quantity, −date, −time).  Note that
`market_lead_program` is NOT part of this key — the query does not mention it. -/
def buyerWorstKey (e : BookOrder) : ℚ ×ₗ (Int ×ₗ (Int ×ₗ Int)) :=
  toLex (e.price, toLex (e.quantity,
    toLex (-(e.tradeDate : Int), -(e.tradeTime : Int))))

/-- Sort key of the worst-seller query
`ORDER BY price DESC, quantity ASC, trade_date DESC, trade_time DESC`
(top_orders.go): lexicographic on (−price, quantity, −date, −time); again
without `market_lead_program`. -/
def sellerWorstKey (e : BookOrder) : ℚ ×ₗ (Int ×ₗ (Int ×ₗ Int)) :=
  toLex (-e.price, toLex (e.quantity,
    toLex (-(e.tradeDate : Int), -(e.tradeTime : Int))))

/-- Strict "comes before in the worst-buyer ORDER BY" comparator. -/
def buyerWorstLt (a b : BookOrder) : Bool :=
  decide (buyerWorstKey a < buyerWorstKey b)

/-- Strict "comes before in the worst-seller ORDER BY" comparator. -/
def sellerWorstLt (a b : BookOrder) : Bool :=
  decide (sellerWorstKey a < sellerWorstKey b)

/-- The comparator of the worst-order query for a side. -/
def roleWorstLt : Role → BookOrder → BookOrder → Bool
  | Role.buyer => buyerWorstLt
  | Role.seller => sellerWorstLt

/-- The non-MLP buyer tie-breaking ladder of `intelligentOrderInsertion`
(top_orders.go): price beats, then quantity, then earlier date, then earlier
time; everything else does not qualify. -/
def buyerBeats (o w : BookOrder) : Bool :=
  if o.price > w.price then true
  else if o.price == w.price then
    if o.quantity > w.quantity then true
    else if o.quantity == w.quantity then
      if o.tradeDate < w.tradeDate then true
      else if o.tradeDate == w.tradeDate then decide (o.tradeTime < w.tradeTime)
      else false
    else false
  else false

/-- The non-MLP seller tie-breaking ladder: lower price beats, then the same
quantity/date/time ladder. -/
def sellerBeats (o w : BookOrder) : Bool :=
  if o.price < w.price then true
  else if o.price == w.price then
    if o.quantity > w.quantity then true
    else if o.quantity == w.quantity then
      if o.tradeDate < w.tradeDate then true
      else if o.tradeDate == w.tradeDate then decide (o.tradeTime < w.tradeTime)
      else false
    else false
  else false

/-- The tie-breaking ladder for a side. -/
def roleBeats : Role → BookOrder → BookOrder → Bool
  | Role.buyer => buyerBeats
  | Role.seller => sellerBeats

/-- Go `intelligentOrderInsertion` (top_orders.go): insert the new order into
the main tier; if the top tier is below K = 10 move it straight in; otherwise
select the eviction candidate (non-MLP worst for an MLP order, falling back to
the overall worst; the overall worst for a non-MLP order), admit an MLP order
unconditionally and a non-MLP order only when it beats the candidate by the
ladder, then swap: restore the candidate to the main tier when absent, remove
it from the top tier, and move the new order from main to top. -/
def intelligentOrderInsertion (role : Role) (s : Side) (o : BookOrder) : Side :=
  let main1 := s.main ++ [o]
  if s.top.length < 10 then
    if s.top.any (fun t => t.id == o.id) then ⟨s.top, main1⟩
    else ⟨s.top ++ [o], main1.filter (fun x => x.id != o.id)⟩
  else
    let worstq :=
      if o.marketLeadProgram then
        match worstBy (roleWorstLt role) (s.top.filter (fun t => !t.marketLeadProgram)) with
        | some w => some w
        | none => worstBy (roleWorstLt role) s.top
      else worstBy (roleWorstLt role) s.top
    match worstq with
    | none => ⟨s.top, main1⟩
    | some w =>
      let shouldMove := if o.marketLeadProgram then true else roleBeats role o w
      if shouldMove then
        let main2 := if main1.any (fun x => x.id == w.id) then main1 else main1 ++ [w]
        let top2 := s.top.filter (fun t => t.id != w.id)
        if top2.any (fun t => t.id == o.id) then ⟨top2, main2⟩
        else ⟨top2 ++ [o], main2.filter (fun x => x.id != o.id)⟩
      else ⟨s.top, main1⟩

theorem foldlWorst_min {β : Type} [LinearOrder β] (k : BookOrder → β) :
    ∀ (l : List BookOrder) (acc : BookOrder),
      (l.foldl (fun w e => if decide (k e < k w) then e else w) acc ∈ acc :: l)
      ∧ ∀ e ∈ acc :: l,
          ¬ k e < k (l.foldl (fun w e => if decide (k e < k w) then e else w) acc) := by
  intro l
  induction l with
  | nil =>
    intro acc
    refine ⟨List.mem_cons_self _ _, ?_⟩
    intro e he
    rw [List.mem_singleton] at he
    subst he
    simp only [List.foldl_nil]
    exact lt_irrefl _
  | cons x xs ih =>
    intro acc
    rw [List.foldl_cons]
    by_cases h : k x < k acc
    · have hd : (if decide (k x < k acc) then x else acc) = x := by simp [h]
      rw [hd]
      obtain ⟨hmem, hmin⟩ := ih x
      refine ⟨List.mem_cons_of_mem acc hmem, ?_⟩
      intro e he
      rcases List.mem_cons.mp he with he1 | he2
      · subst he1
        intro habs
        exact hmin x (List.mem_cons_self x xs) (lt_trans h habs)
      · exact hmin e he2
    · have hd : (if decide (k x < k acc) then x else acc) = acc := by simp [h]
      rw [hd]
      obtain ⟨hmem, hmin⟩ := ih acc
      constructor
      · rcases List.mem_cons.mp hmem with h1 | h1
        · rw [h1]
          exact List.mem_cons_self _ _
        · exact List.mem_cons_of_mem acc (List.mem_cons_of_mem x h1)
      · intro e he
        rcases List.mem_cons.mp he with he1 | he2
        · rw [he1]
          exact hmin acc (List.mem_cons_self acc xs)
        · rcases List.mem_cons.mp he2 with hex | hexs
          · rw [hex]
            intro habs
            exact hmin acc (List.mem_cons_self acc xs)
              (lt_of_le_of_lt (le_of_not_lt h) habs)
          · exact hmin e (List.mem_cons_of_mem acc hexs)

theorem worstBy_key_min {β : Type} [LinearOrder β] (k : BookOrder → β)
    (l : List BookOrder) (w : BookOrder)
    (hw : worstBy (fun a b => decide (k a < k b)) l = some w) :
    w ∈ l ∧ ∀ e ∈ l, ¬ k e < k w := by
  cases l with
  | nil => simp [worstBy] at hw
  | cons x xs =>
    have hw' : xs.foldl (fun w e => if decide (k e < k w) then e else w) x = w := by
      simpa [worstBy] using hw
    obtain ⟨hmem, hmin⟩ := foldlWorst_min k xs x
    rw [hw'] at hmem hmin
    exact ⟨hmem, hmin⟩

/-- A full top-buyer tier of K = 10 entries holding one MLP entry at the
lowest price (50) and nine non-MLP entries priced 95–103. -/
def topC4 : List BookOrder :=
  [⟨101, 1, 1, 50, 5, 20250101, 300, 0, 0, true, 1, 0⟩,
   ⟨102, 1, 1, 95, 5, 20250101, 300, 0, 0, false, 1, 0⟩,
   ⟨103, 1, 1, 96, 5, 20250101, 300, 0, 0, false, 1, 0⟩,
   ⟨104, 1, 1, 97, 5, 20250101, 300, 0, 0, false, 1, 0⟩,
   ⟨105, 1, 1, 98, 5, 20250101, 300, 0, 0, false, 1, 0⟩,
   ⟨106, 1, 1, 99, 5, 20250101, 300, 0, 0, false, 1, 0⟩,
   ⟨107, 1, 1, 100, 5, 20250101, 300, 0, 0, false, 1, 0⟩,
   ⟨108, 1, 1, 101, 5, 20250101, 300, 0, 0, false, 1, 0⟩,
   ⟨109, 1, 1, 102, 5, 20250101, 300, 0, 0, false, 1, 0⟩,
   ⟨110, 1, 1, 103, 5, 20250101, 300, 0, 0, false, 1, 0⟩]

/-- A non-MLP buyer at price 60: worse than every non-MLP top entry, better
than the MLP entry's price. -/
def oC4 : BookOrder := ⟨90, 9, 9, 60, 5, 20250101, 300, 0, 0, false, 1, 0⟩

set_option maxRecDepth 100000 in
/-- C4 counterexample: admitting the non-MLP order `oC4` into the full tier
`topC4` evicts the MLP entry (id 101) although non-MLP entries are present —
the worst-order query orders by price/quantity/date/time only and ignores the
MLP flag, so an MLP entry can be selected as worse than non-MLP entries. -/
theorem C4_mlp_entry_evicted_counterexample :
    ((intelligentOrderInsertion Role.buyer ⟨topC4, []⟩ oC4).top.any
        (fun t => t.id == 101)) = false
    ∧ ((intelligentOrderInsertion Role.buyer ⟨topC4, []⟩ oC4).main.any
        (fun t => t.id == 101)) = true
    ∧ ((intelligentOrderInsertion Role.buyer ⟨topC4, []⟩ oC4).top.any
        (fun t => t.id == 90)) = true
    ∧ (topC4.any (fun t => t.id == 101 && t.marketLeadProgram)) = true
    ∧ (topC4.any (fun t => !t.marketLeadProgram)) = true
    ∧ oC4.marketLeadProgram = false
    ∧ topC4.length = 10 := by
  decide

/-- C4 amended: for a non-MLP admission at a full tier, the eviction candidate
returned by the worst-order query is a top entry that is minimal under the
per-side tuple (buyers: price asc, quantity asc, trade_date desc, trade_time
desc; sellers: price desc, then the same) with the MLP flag playing no role in
the selection. -/
theorem C4_eviction_candidate_minimal (top : List BookOrder) (w : BookOrder) :
    (worstBy buyerWorstLt top = some w →
      w ∈ top ∧ ∀ e ∈ top, ¬ buyerWorstKey e < buyerWorstKey w)
    ∧ (worstBy sellerWorstLt top = some w →
      w ∈ top ∧ ∀ e ∈ top, ¬ sellerWorstKey e < sellerWorstKey w) :=
  ⟨fun hw => worstBy_key_min buyerWorstKey top w hw,
   fun hw => worstBy_key_min sellerWorstKey top w hw⟩

/-- Witness for C4 on a two-entry tier: the later-timed order is selected as
worst and the other entry is not below it in the buyer worst-key order. -/
theorem C4_eviction_candidate_minimal_witness :
    sEx1 ∈ [bEx1, sEx1] ∧ ¬ buyerWorstKey bEx1 < buyerWorstKey sEx1 := by
  have h := (C4_eviction_candidate_minimal [bEx1, sEx1] sEx1).1 (by decide)
  exact ⟨h.1, h.2 bEx1 (by decide)⟩

/-- The worst entry of `topC8` (lowest price 95, non-MLP). -/
def wC8 : BookOrder := ⟨141, 1, 1, 95, 5, 20250101, 300, 0, 0, false, 1, 0⟩

/-- A full top-buyer tier of ten non-MLP entries priced 95–104. -/
def topC8 : List BookOrder :=
  [wC8,
   ⟨142, 1, 1, 96, 5, 20250101, 300, 0, 0, false, 1, 0⟩,
   ⟨143, 1, 1, 97, 5, 20250101, 300, 0, 0, false, 1, 0⟩,
   ⟨144, 1, 1, 98, 5, 20250101, 300, 0, 0, false, 1, 0⟩,
   ⟨145, 1, 1, 99, 5, 20250101, 300, 0, 0, false, 1, 0⟩,
   ⟨146, 1, 1, 100, 5, 20250101, 300, 0, 0, false, 1, 0⟩,
   ⟨147, 1, 1, 101, 5, 20250101, 300, 0, 0, false, 1, 0⟩,
   ⟨148, 1, 1, 102, 5, 20250101, 300, 0, 0, false, 1, 0⟩,
   ⟨149, 1, 1, 103, 5, 20250101, 300, 0, 0, false, 1, 0⟩,
   ⟨150, 1, 1, 104, 5, 20250101, 300, 0, 0, false, 1, 0⟩]

/-- An MLP buyer whose (price, quantity, trade_date, trade_time) tuple equals
the worst top entry's tuple exactly. -/
def oC8 : BookOrder := ⟨140, 9, 9, 95, 5, 20250101, 300, 0, 0, true, 1, 0⟩

/-- The same order as `oC8` but without the MLP flag. -/
def oC8n : BookOrder := ⟨139, 9, 9, 95, 5, 20250101, 300, 0, 0, false, 1, 0⟩

set_option maxRecDepth 100000 in
/-- C8 counterexample: an MLP order whose priority tuple equals the worst top
entry's tuple still evicts it and enters the top tier (MLP admissions bypass
the strictly-better requirement), so the claim fails as stated for MLP
orders. -/
theorem C8_mlp_equal_tuple_still_evicts_counterexample :
    ((intelligentOrderInsertion Role.buyer ⟨topC8, []⟩ oC8).top.any
        (fun t => t.id == 140)) = true
    ∧ ((intelligentOrderInsertion Role.buyer ⟨topC8, []⟩ oC8).top.any
        (fun t => t.id == 141)) = false
    ∧ worstBy buyerWorstLt topC8 = some wC8
    ∧ oC8.price = wC8.price ∧ oC8.quantity = wC8.quantity
    ∧ oC8.tradeDate = wC8.tradeDate ∧ oC8.tradeTime = wC8.tradeTime
    ∧ topC8.length = 10 := by
  decide

/-- C8 amended: for a NON-MLP admission at exactly K = 10 top entries, a new
order whose (price, quantity, trade_date, trade_time) tuple equals the selected
worst entry's tuple evicts nothing: the top tier is unchanged and the order
stays in the main tier (MLP admissions always qualify instead). -/
theorem C8_equal_tuple_no_eviction (role : Role) (s : Side) (o w : BookOrder)
    (hmlp : o.marketLeadProgram = false)
    (hlen : s.top.length = 10)
    (hw : worstBy (roleWorstLt role) s.top = some w)
    (hp : o.price = w.price) (hq : o.quantity = w.quantity)
    (hd : o.tradeDate = w.tradeDate) (ht : o.tradeTime = w.tradeTime) :
    intelligentOrderInsertion role s o = ⟨s.top, s.main ++ [o]⟩ := by
  have hbeats : roleBeats role o w = false := by
    cases role
    · show buyerBeats o w = false
      unfold buyerBeats
      rw [hp, hq, hd, ht]
      simp
    · show sellerBeats o w = false
      unfold sellerBeats
      rw [hp, hq, hd, ht]
      simp
  unfold intelligentOrderInsertion
  rw [hlen, hmlp, hw]
  simp [hbeats]

set_option maxRecDepth 100000 in
/-- Witness for C8: the non-MLP twin of the equal-tuple order is rejected from
the full tier `topC8` and lands in the main tier, leaving the top unchanged. -/
theorem C8_equal_tuple_no_eviction_witness :
    intelligentOrderInsertion Role.buyer ⟨topC8, []⟩ oC8n = ⟨topC8, [oC8n]⟩ :=
  C8_equal_tuple_no_eviction Role.buyer ⟨topC8, []⟩ oC8n wC8
    rfl (by decide) (by decide) rfl rfl rfl rfl

/-- C3 at its failing inputs: a full sync of a side whose top table holds an
order absent from the main table deletes that order outright; and two
consecutive full syncs starting from two main-table orders first promote both
and then erase both, so the second call is not a no-op. -/
theorem C3_full_sync_loses_orders :
    syncSide sellerFetchLe [sEx1] [] = ([], [])
    ∧ (syncSide sellerFetchLe [] [sEx1, sEx2]).1.length = 2
    ∧ (let p := syncSide sellerFetchLe [] [sEx1, sEx2]
       syncSide sellerFetchLe p.1 p.2 = ([], []))
    ∧ (let p := syncSide sellerFetchLe [] [sEx1, sEx2]
       syncSide sellerFetchLe p.1 p.2 ≠ p) := by
  decide

end Trading
